import Mathlib

/-!
Shallow embedding of `src/scraper.py` (karmeleon/reddit-scraper).

Modelling conventions:
* Python dict values are `Val`; a dict is an insertion-ordered association
  list with unique keys (`Dict`); `dictSet` overwrites in place, exactly as
  a Python dict assignment does.
* Python datetimes are Unix epoch seconds (`Int`); `timedelta(days=1)` is
  86400 seconds and `timedelta(seconds=1)` is 1 second, so the end-of-day
  normalisation on line 86 of the source is `end_date + 86400 - 1`.
* The pushshift HTTP call (`query_pushshift`, lines 149-156) and the praw
  `reddit.info` batch lookup (line 107) are external collaborators; they are
  passed in as function parameters, as are `json.dump` and `strftime`.
* Fallible Python code is embedded in `Except PyError`.
* `scrapeLoop` carries a ghost trace that records every archive request
  together with the page the archive returned for it; the trace never
  influences control flow and exists only so that theorems can speak about
  the sequence of API calls the loop makes.
-/

set_option autoImplicit false

namespace Scraper

/-- JSON-like values held in a post dictionary. -/
inductive Val where
  | int (i : Int)
  | str (s : String)
  | bool (b : Bool)
  | null
  deriving Repr, DecidableEq

/-- A Python dict with string keys: insertion-ordered association list,
keys unique, assignment overwrites in place. -/
abbrev Dict := List (String × Val)

/-- Lookup `d[k]` as an `Option` (first matching key). -/
def dictLookup (d : Dict) (k : String) : Option Val :=
  match d with
  | [] => none
  | (k2, v) :: rest => if k2 = k then some v else dictLookup rest k

/-- Python dict assignment `d[k] = v`: overwrite in place, append if absent. -/
def dictSet (d : Dict) (k : String) (v : Val) : Dict :=
  match d with
  | [] => [(k, v)]
  | (k2, v2) :: rest => if k2 = k then (k, v) :: rest else (k2, v2) :: dictSet rest k v

/-- Python `k in d`. -/
def dictContains (d : Dict) (k : String) : Bool :=
  (dictLookup d k).isSome

/-- The Python exceptions the embedded code can raise. -/
inductive PyError where
  | keyError (k : String)
  | typeError
  | valueError
  | unboundLocal (var : String)
  | systemExit (code : Nat) (msg : String)
  deriving Repr, DecidableEq

/-- Python `d[k]` with a `KeyError` when the key is absent. -/
def subscript (d : Dict) (k : String) : Except PyError Val :=
  match dictLookup d k with
  | some v => .ok v
  | none => .error (.keyError k)

/-- Python `int(v)` on the values a post field can hold. -/
def pyInt (v : Val) : Except PyError Int :=
  match v with
  | .int i => .ok i
  | .bool b => .ok (if b then 1 else 0)
  | .str s => match s.toInt? with
    | some i => .ok i
    | none => .error .valueError
  | .null => .error .typeError

/-- Python `str(v)`, as used by the f-string on line 101. -/
def pyStr (v : Val) : String :=
  match v with
  | .int i => toString i
  | .str s => s
  | .bool b => if b then "True" else "False"
  | .null => "None"

/-- Python truthiness of the `fields` argument (line 115 `if fields:`):
`None` and the empty list are falsy. -/
def listTruthy (fields : Option (List String)) : Bool :=
  match fields with
  | none => false
  | some l => !l.isEmpty

/-- Lines 10-21: the ten volatile fields refreshed from the live API. -/
def FIELDS_TO_UPDATE : List String :=
  ["locked", "num_comments", "num_crossposts", "over_18", "pinned",
   "score", "selftext", "spoiler", "stickied", "subreddit_subscribers"]

/-- The body of `keep_whitelisted_fields` (lines 134-138): iterate the
whitelist, copying `post[field]` into a fresh dict; a missing field raises
`KeyError`. -/
def keepFieldsLoop (post : Dict) (whitelist : List String) (output : Dict) :
    Except PyError Dict :=
  match whitelist with
  | [] => .ok output
  | field :: rest =>
    match dictLookup post field with
    | none => .error (.keyError field)
    | some v => keepFieldsLoop post rest (dictSet output field v)

/-- Lines 134-138: `keep_whitelisted_fields(post, whitelist)`. -/
def keep_whitelisted_fields (post : Dict) (whitelist : List String) :
    Except PyError Dict :=
  keepFieldsLoop post whitelist []

/-- Lines 119-121: `for field in FIELDS_TO_UPDATE: if field in post:
post[field] = getattr(submission, field)`.  A praw submission is modelled
as a total attribute map `String → Val`. -/
def updateFields (submission : String → Val) (post : Dict) : Dict :=
  FIELDS_TO_UPDATE.foldl
    (fun p field => if dictContains p field then dictSet p field (submission field) else p)
    post

/-- Lines 111-123, one item of the page loop (without the append): set
`current_epoch = int(post["created_utc"])` from the raw post, then reduce to
the whitelist when `fields` is truthy, then overwrite the volatile fields
from the live submission when `update` is set.  Returns the processed post
and the new cursor value. -/
def processPost (update : Bool) (fields : Option (List String)) (post : Dict)
    (submission : Option (String → Val)) : Except PyError (Dict × Int) :=
  match subscript post "created_utc" with
  | .error e => .error e
  | .ok cuv =>
    match pyInt cuv with
    | .error e => .error e
    | .ok current_epoch =>
      match (if listTruthy fields then keep_whitelisted_fields post (fields.getD [])
             else .ok post) with
      | .error e => .error e
      | .ok post1 =>
        let post2 := if update then
            match submission with
            | some s => updateFields s post1
            | none => post1
          else post1
        .ok (post2, current_epoch)

/-- Lines 111-125: the `for post, submission in zipped_posts` loop; each
processed post is appended to `output` and the cursor threads through. -/
def processPage (update : Bool) (fields : Option (List String))
    (zipped : List (Dict × Option (String → Val)))
    (output : List Dict) (current_epoch : Int) : Except PyError (List Dict × Int) :=
  match zipped with
  | [] => .ok (output, current_epoch)
  | (post, submission) :: rest =>
    match processPost update fields post submission with
    | .error e => .error e
    | .ok (p, ce) => processPage update fields rest (output ++ [p]) ce

/-- Line 101: `ids = [f"t3_{post[\x22id\x22]}" for post in posts]`; a post
without an `id` key raises `KeyError`.  This list is built before the
empty-page check on line 102. -/
def postIds (posts : List Dict) : Except PyError (List String) :=
  match posts with
  | [] => .ok []
  | post :: rest =>
    match dictLookup post "id" with
    | none => .error (.keyError "id")
    | some v =>
      match postIds rest with
      | .error e => .error e
      | .ok ids => .ok (("t3_" ++ pyStr v) :: ids)

/-- The query parameters built on lines 92-99. -/
structure Payload where
  subreddit : String
  sort : String
  size : Nat
  before : Int
  after : Int
  sort_type : String
  deriving Repr, DecidableEq

/-- Lines 92-99: the payload for one archive request. -/
def mkPayload (subreddit : String) (current_epoch end_epoch : Int) : Payload :=
  { subreddit := subreddit, sort := "desc", size := 500,
    before := current_epoch, after := end_epoch, sort_type := "created_utc" }

/-- The parameters of `scrape_subreddit` that stay fixed across the loop,
together with the two external collaborators. -/
structure ScrapeEnv where
  api : Payload → List Dict
  info : List String → List (String → Val)
  subreddit : String
  update : Bool
  count : Option Int
  fields : Option (List String)
  end_epoch : Int

/-- Outcome of the `while` loop of `scrape_subreddit`. -/
inductive LoopResult where
  | ok (output : List Dict) (current_epoch : Int) (trace : List (Payload × List Dict))
  | err (e : PyError)
  | hang

/-- Result of one iteration body (lines 92-125) before looping. -/
inductive StepResult where
  | emptyPage (payload : Payload)
  | page (payload : Payload) (posts : List Dict) (output : List Dict) (current_epoch : Int)
  | failure (e : PyError)
  | stuck

/-- Lines 106-109: zip the page with live submissions (`reddit.info(ids)`
when `update` is set, else with `None` placeholders of the same length). -/
def scrapeZip (env : ScrapeEnv) (ids : List String) (posts : List Dict) :
    List (Dict × Option (String → Val)) :=
  if env.update then posts.zip ((env.info ids).map some)
  else posts.zip (List.replicate posts.length none)

/-- Lines 92-125: one iteration of the loop body.  Fetch a page for the
current cursor, build the id list, break on an empty page, zip the posts
with live submissions, and process the page.  `stuck` marks the state in
which the zipped list is empty although the page is not (possible only when
`reddit.info` yields nothing): the Python loop body then changes no state
at all and the `while` loop repeats it forever. -/
def scrapeStep (env : ScrapeEnv) (output : List Dict) (current_epoch : Int) :
    StepResult :=
  match postIds (env.api (mkPayload env.subreddit current_epoch env.end_epoch)) with
  | .error e => .failure e
  | .ok ids =>
    if (env.api (mkPayload env.subreddit current_epoch env.end_epoch)).isEmpty then
      .emptyPage (mkPayload env.subreddit current_epoch env.end_epoch)
    else
      if (scrapeZip env ids (env.api (mkPayload env.subreddit current_epoch env.end_epoch))).isEmpty then
        .stuck
      else
        match processPage env.update env.fields
            (scrapeZip env ids (env.api (mkPayload env.subreddit current_epoch env.end_epoch)))
            output current_epoch with
        | .error e => .failure e
        | .ok (output2, ce2) =>
          .page (mkPayload env.subreddit current_epoch env.end_epoch)
            (env.api (mkPayload env.subreddit current_epoch env.end_epoch)) output2 ce2

/-- On a successful `.page` step the output strictly grows (the zipped list
is non-empty and every element of it is appended). -/
theorem processPage_length (update : Bool) (fields : Option (List String)) :
    ∀ (zipped : List (Dict × Option (String → Val))) (output : List Dict)
      (ce : Int) (out2 : List Dict) (ce2 : Int),
      processPage update fields zipped output ce = .ok (out2, ce2) →
      out2.length = output.length + zipped.length := by
  intro zipped
  induction zipped with
  | nil =>
    intro output ce out2 ce2 h
    simp only [processPage] at h
    cases h
    simp
  | cons hd tl ih =>
    intro output ce out2 ce2 h
    obtain ⟨post, submission⟩ := hd
    simp only [processPage] at h
    cases hpp : processPost update fields post submission with
    | error e => rw [hpp] at h; cases h
    | ok pc =>
      rw [hpp] at h
      obtain ⟨p, ce1⟩ := pc
      have h2 := ih (output ++ [p]) ce1 out2 ce2 h
      simp [List.length_append] at h2 ⊢
      omega

theorem scrapeStep_growth (env : ScrapeEnv) (output : List Dict) (ce : Int)
    (pl : Payload) (posts : List Dict) (out2 : List Dict) (ce2 : Int)
    (h : scrapeStep env output ce = .page pl posts out2 ce2) :
    output.length < out2.length := by
  unfold scrapeStep at h
  split at h
  · cases h
  · rename_i ids hids
    split at h
    · cases h
    · split at h
      · cases h
      · rename_i hempty hzne
        split at h
        · cases h
        · rename_i o2 c2 hpp
          cases h
          have hlen := processPage_length env.update env.fields _ output ce out2 ce2 hpp
          have hz : (scrapeZip env ids
              (env.api (mkPayload env.subreddit ce env.end_epoch))).length ≠ 0 := by
            intro hcontra
            exact hzne (List.isEmpty_iff_length_eq_zero.mpr hcontra)
          omega

/-- Lines 91-125 with the count already known to be an `int` `n`: the loop
condition is then exactly `len(output) < n` (see `scrapeLoop` for why). -/
def scrapeLoopInt (env : ScrapeEnv) (n : Int) (output : List Dict)
    (current_epoch : Int) (trace : List (Payload × List Dict)) : LoopResult :=
  if hlt : (output.length : Int) < n then
    match hs : scrapeStep env output current_epoch with
    | .failure e => .err e
    | .stuck => .hang
    | .emptyPage payload => .ok output current_epoch (trace ++ [(payload, [])])
    | .page payload posts output2 ce2 =>
      scrapeLoopInt env n output2 ce2 (trace ++ [(payload, posts)])
  else .ok output current_epoch trace
termination_by (n - output.length).toNat
decreasing_by
  have hg := scrapeStep_growth env output current_epoch payload posts output2 ce2 hs
  omega

/-- Lines 91-125: the `while len(output) < count or count is None:` loop.
Python evaluates `len(output) < count` first, so a `None` count raises
`TypeError` at the very first condition check, before the `or` branch is
reached; with an `int` count the right operand of `or` is evaluated only
when the comparison is `False`, and is then itself `False`, so the
condition is exactly `len(output) < count`.  The count never changes while
the loop runs, so the `None` test is hoisted out of the recursion. -/
def scrapeLoop (env : ScrapeEnv) (output : List Dict) (current_epoch : Int)
    (trace : List (Payload × List Dict)) : LoopResult :=
  match env.count with
  | none => .err .typeError
  | some n => scrapeLoopInt env n output current_epoch trace

/-- Lines 140-147: `login_to_reddit`, with the `os.path.isfile("praw.ini")`
check modelled as a boolean input.  The actual `praw.Reddit` construction is
an external collaborator and is abstracted as success; the diagnostic text
printed before `exit(1)` is abbreviated here. -/
def login_to_reddit (praw_ini_isfile : Bool) : Except PyError Unit :=
  if praw_ini_isfile = false then
    .error (.systemExit 1 "praw.ini not found in this directory")
  else .ok ()

/-- A flat file system: path to file contents. -/
abbrev FileSys := List (String × String)

def fsLookup (fs : FileSys) (path : String) : Option String :=
  match fs with
  | [] => none
  | (p, c) :: rest => if p = path then some c else fsLookup rest path

/-- `open(path, "w")` followed by a full write: truncate or create, then
replace the contents. -/
def fsSet (fs : FileSys) (path content : String) : FileSys :=
  match fs with
  | [] => [(path, content)]
  | (p, c) :: rest => if p = path then (path, content) :: rest
    else (p, c) :: fsSet rest path content

/-- Result of one `scrape_subreddit` call. -/
inductive ScrapeOutcome where
  | ok (output : List Dict) (current_epoch : Int)
      (trace : List (Payload × List Dict)) (fs : FileSys)
  | err (e : PyError)
  | hang

/-- Lines 79-132: `scrape_subreddit`.  Dates are epoch seconds at midnight
UTC, so `int(start_date.timestamp())` is `start_date` itself and the
end-of-day normalisation on line 86 is `end_date + 86400 - 1`.  Note the
source swaps the names: the variable `end_epoch` holds the range start and
`start_epoch` holds the normalised range end, because the walk is
descending.  `dump` abstracts `json.dump`, `fmtDate` abstracts
`datetime.fromtimestamp(..).strftime("%Y-%m-%d")`, and the final write
(lines 127-130) opens the output path in mode `w` unconditionally. -/
def scrape_subreddit (api : Payload → List Dict)
    (info : List String → List (String → Val))
    (dump : List Dict → String) (fmtDate : Int → String) (fs : FileSys)
    (praw_ini_isfile : Bool) (subreddit : String) (update : Bool)
    (count : Option Int) (fields : Option (List String))
    (start_date end_date : Int) : ScrapeOutcome :=
  match (if update then login_to_reddit praw_ini_isfile else .ok ()) with
  | .error e => .err e
  | .ok _ =>
    match scrapeLoop ⟨api, info, subreddit, update, count, fields, start_date⟩
        [] (end_date + 86400 - 1) [] with
    | .ok output ce tr =>
      .ok output ce tr (fsSet fs
        (subreddit ++ "-" ++ fmtDate (end_date + 86400 - 1) ++ "-"
          ++ fmtDate start_date ++ ".json")
        (dump output))
    | .err e => .err e
    | .hang => .hang

/-- Line 37: `parser.add_argument("--count", type=int, default=1000, ...)`.
When `--count` is absent from the command line, argparse fills in 1000. -/
def parsed_count (cli_count : Option Int) : Int :=
  cli_count.getD 1000

/-- Lines 62-63 and line 70 of `main`: the local variable `fields` is
assigned only inside `if args.field_list:`; when `--field_list` is absent
(or an empty, falsy string) the later reference to `fields` at the
`scrape_subreddit` call raises `UnboundLocalError`. -/
def main_fields (field_list : Option String)
    (read_lines_of_file : String → List String) : Except PyError (List String) :=
  match field_list with
  | some path => if path = "" then .error (.unboundLocal "fields")
    else .ok (read_lines_of_file path)
  | none => .error (.unboundLocal "fields")

/-- Lines 40-73 of `main`, specialised to one subreddit: resolve the
`fields` local, apply the argparse default for `--count`, default the dates
(`datetime(2000, 1, 1)` is epoch 946684800; `datetime.now()` is the `now`
parameter), then call `scrape_subreddit`. -/
def main_scrape_one (api : Payload → List Dict)
    (info : List String → List (String → Val))
    (dump : List Dict → String) (fmtDate : Int → String) (fs : FileSys)
    (praw_ini_isfile : Bool) (sub : String) (update : Bool)
    (cli_count : Option Int) (field_list : Option String)
    (read_lines_of_file : String → List String)
    (start_date end_date : Option Int) (now : Int) : ScrapeOutcome :=
  match main_fields field_list read_lines_of_file with
  | .error e => .err e
  | .ok fields =>
    scrape_subreddit api info dump fmtDate fs praw_ini_isfile sub update
      (some (parsed_count cli_count)) (some fields)
      (start_date.getD 946684800) (end_date.getD now)

/-- The cursor value after the per-item `current_epoch` assignments of one
page: fold over the raw posts, taking each convertible `created_utc`. -/
def pageCursor (posts : List Dict) (ce : Int) : Int :=
  posts.foldl
    (fun c post =>
      match dictLookup post "created_utc" with
      | none => c
      | some v =>
        match pyInt v with
        | .error _ => c
        | .ok t => t)
    ce

/-- The trace invariant: each recorded request carries `before = cursor`,
where the cursor starts at `ce` and advances over each recorded page. -/
def traceChained (ce : Int) (trace : List (Payload × List Dict)) : Prop :=
  match trace with
  | [] => True
  | (pl, posts) :: rest => pl.before = ce ∧ traceChained (pageCursor posts ce) rest

/-! ## Lemmas about the dictionary model -/

theorem dictLookup_set (d : Dict) (k : String) (v : Val) (q : String) :
    dictLookup (dictSet d k v) q = if q = k then some v else dictLookup d q := by
  induction d with
  | nil =>
    simp only [dictSet, dictLookup]
    by_cases h : q = k
    · subst h; simp
    · rw [if_neg (fun hh : k = q => h hh.symm), if_neg h]
  | cons hd tl ih =>
    obtain ⟨k2, v2⟩ := hd
    simp only [dictSet]
    by_cases h2 : k2 = k
    · subst h2
      rw [if_pos rfl]
      simp only [dictLookup]
      by_cases h : q = k2
      · subst h; simp
      · rw [if_neg (fun hh : k2 = q => h hh.symm), if_neg h,
          if_neg (fun hh : k2 = q => h hh.symm)]
  -- the head key differs from the assigned key
    · rw [if_neg h2]
      simp only [dictLookup, ih]
      by_cases hq : k2 = q
      · subst hq
        rw [if_pos rfl, if_neg (fun hh : k2 = k => h2 hh), if_pos rfl]
      · rw [if_neg hq, if_neg hq]

theorem dictLookup_set_isSome (d : Dict) (k : String) (v : Val) (q : String)
    (hk : (dictLookup d k).isSome) :
    (dictLookup (dictSet d k v) q).isSome = (dictLookup d q).isSome := by
  rw [dictLookup_set]
  by_cases h : q = k
  · subst h; simp [hk]
  · simp [h]

/-! ## Lemmas about `keep_whitelisted_fields` -/

theorem keepFieldsLoop_ok (post : Dict) :
    ∀ (wl : List String) (acc : Dict),
      (∀ f ∈ wl, (dictLookup post f).isSome) →
      ∃ out, keepFieldsLoop post wl acc = .ok out ∧
        ∀ q, dictLookup out q =
          if q ∈ wl then dictLookup post q else dictLookup acc q := by
  intro wl
  induction wl with
  | nil =>
    intro acc h
    exact ⟨acc, rfl, by intro q; simp⟩
  | cons f rest ih =>
    intro acc h
    have hf : (dictLookup post f).isSome := h f (List.mem_cons_self f rest)
    obtain ⟨v, hv⟩ := Option.isSome_iff_exists.mp hf
    obtain ⟨out, hout, hspec⟩ :=
      ih (dictSet acc f v) (fun g hg => h g (List.mem_cons_of_mem _ hg))
    refine ⟨out, ?_, ?_⟩
    · simp [keepFieldsLoop, hv, hout]
    · intro q
      rw [hspec q, dictLookup_set]
      by_cases hq : q ∈ rest
      · simp [hq, List.mem_cons]
      · by_cases hqf : q = f
        · subst hqf
          simp [hq, hv]
        · simp [hq, hqf, List.mem_cons]

theorem keepFieldsLoop_err (post : Dict) :
    ∀ (wl : List String) (acc : Dict) (f : String),
      f ∈ wl → dictLookup post f = none →
      ∃ g, keepFieldsLoop post wl acc = .error (.keyError g) ∧ g ∈ wl ∧
        dictLookup post g = none := by
  intro wl
  induction wl with
  | nil =>
    intro acc f hf
    simp at hf
  | cons w rest ih =>
    intro acc f hf hnone
    cases hw : dictLookup post w with
    | none =>
      exact ⟨w, by simp [keepFieldsLoop, hw], List.mem_cons_self w rest, hw⟩
    | some v =>
      have hfr : f ∈ rest := by
        rcases List.mem_cons.mp hf with h1 | h1
        · subst h1; rw [hw] at hnone; cases hnone
        · exact h1
      obtain ⟨g, hg1, hg2, hg3⟩ := ih (dictSet acc w v) f hfr hnone
      exact ⟨g, by simp [keepFieldsLoop, hw, hg1], List.mem_cons_of_mem _ hg2, hg3⟩

/-! ## Lemmas about the volatile-field update -/

theorem foldUpdate_lookup (s : String → Val) :
    ∀ (l : List String) (d : Dict) (q : String),
      dictLookup
        (l.foldl (fun p field =>
          if dictContains p field then dictSet p field (s field) else p) d) q
      = if q ∈ l ∧ (dictLookup d q).isSome then some (s q) else dictLookup d q := by
  intro l
  induction l with
  | nil => intro d q; simp
  | cons f rest ih =>
    intro d q
    simp only [List.foldl_cons]
    by_cases hcont : dictContains d f
    · rw [if_pos hcont]
      rw [ih]
      have hfsome : (dictLookup d f).isSome := hcont
      have hpres : ∀ r, (dictLookup (dictSet d f (s f)) r).isSome
          = (dictLookup d r).isSome :=
        fun r => dictLookup_set_isSome d f (s f) r hfsome
      by_cases hq : q ∈ rest
      · by_cases hsome : (dictLookup d q).isSome
        · simp [hq, hsome, hpres, List.mem_cons]
        · simp only [hpres, hq, hsome, and_false, if_false, and_true]
          rw [dictLookup_set]
          by_cases hqf : q = f
          · subst hqf; exact absurd hfsome hsome
          · simp [hqf, List.mem_cons, hq, hsome]
      · rw [dictLookup_set]
        by_cases hqf : q = f
        · subst hqf
          simp [hq, hpres, hfsome, List.mem_cons]
        · simp [hq, hqf, hpres, List.mem_cons]
    · rw [if_neg hcont]
      rw [ih]
      by_cases hqf : q = f
      · subst hqf
        have : ¬ (dictLookup d q).isSome := fun hs => hcont hs
        simp [this]
      · simp [hqf, List.mem_cons]

theorem updateFields_lookup (s : String → Val) (d : Dict) (q : String) :
    dictLookup (updateFields s d) q =
      if q ∈ FIELDS_TO_UPDATE ∧ (dictLookup d q).isSome then some (s q)
      else dictLookup d q :=
  foldUpdate_lookup s FIELDS_TO_UPDATE d q

/-! ## Lemmas about `processPost` and the page loop -/

theorem processPost_ce (update : Bool) (fields : Option (List String)) (post : Dict)
    (submission : Option (String → Val)) (p : Dict) (ce : Int)
    (h : processPost update fields post submission = .ok (p, ce)) :
    ∃ v, dictLookup post "created_utc" = some v ∧ pyInt v = .ok ce := by
  unfold processPost at h
  split at h
  · cases h
  · rename_i cuv hcuv
    split at h
    · cases h
    · rename_i t ht
      split at h
      · cases h
      · rename_i post1 hpost1
        cases h
        unfold subscript at hcuv
        split at hcuv
        · rename_i v2 hv2
          have hvc := Except.ok.inj hcuv
          rw [hvc] at hv2
          exact ⟨cuv, hv2, ht⟩
        · cases hcuv

theorem processPost_plain (fields : Option (List String))
    (hf : listTruthy fields = false) (post : Dict)
    (submission : Option (String → Val)) (v : Val) (t : Int)
    (hv : dictLookup post "created_utc" = some v) (ht : pyInt v = .ok t) :
    processPost false fields post submission = .ok (post, t) := by
  unfold processPost subscript
  rw [hv]
  simp [ht, hf]

theorem processPage_plain (fields : Option (List String))
    (hf : listTruthy fields = false) :
    ∀ (zipped : List (Dict × Option (String → Val))) (output : List Dict) (ce : Int),
      (∀ pr ∈ zipped, ∃ v t, dictLookup pr.fst "created_utc" = some v ∧ pyInt v = .ok t) →
      ∃ ce2, processPage false fields zipped output ce
        = .ok (output ++ zipped.map Prod.fst, ce2) := by
  intro zipped
  induction zipped with
  | nil =>
    intro output ce _
    exact ⟨ce, by simp [processPage]⟩
  | cons hd tl ih =>
    intro output ce hwf
    obtain ⟨post, sub⟩ := hd
    obtain ⟨v, t, hv, ht⟩ := hwf (post, sub) (List.mem_cons_self _ _)
    obtain ⟨ce2, h2⟩ :=
      ih (output ++ [post]) t (fun pr hpr => hwf pr (List.mem_cons_of_mem _ hpr))
    refine ⟨ce2, ?_⟩
    simp only [processPage, processPost_plain fields hf post sub v t hv ht]
    rw [h2]
    simp

theorem processPage_getLast :
    ∀ (zipped : List (Dict × Option (String → Val))) (hne : zipped ≠ [])
      (u : Bool) (f : Option (List String)) (output : List Dict) (ce : Int)
      (out2 : List Dict) (ce2 : Int),
      processPage u f zipped output ce = .ok (out2, ce2) →
      ∃ v, dictLookup (zipped.getLast hne).fst "created_utc" = some v ∧
        pyInt v = .ok ce2 := by
  intro zipped
  induction zipped with
  | nil => intro hne; exact absurd rfl hne
  | cons hd tl ih =>
    intro hne u f output ce out2 ce2 h
    obtain ⟨post, sub⟩ := hd
    simp only [processPage] at h
    cases hpp : processPost u f post sub with
    | error e => rw [hpp] at h; cases h
    | ok pc =>
      rw [hpp] at h
      obtain ⟨p, ce1⟩ := pc
      cases tl with
      | nil =>
        simp only [processPage] at h
        cases h
        obtain ⟨v, hv, hvi⟩ := processPost_ce u f post sub p ce2 hpp
        exact ⟨v, by simp [List.getLast, hv], hvi⟩
      | cons x xs =>
        have hne2 : x :: xs ≠ [] := by simp
        obtain ⟨v, hv, hvi⟩ := ih hne2 u f (output ++ [p]) ce1 out2 ce2 h
        refine ⟨v, ?_, hvi⟩
        rw [List.getLast_cons hne2]
        exact hv

theorem pageCursor_cons (post : Dict) (rest : List Dict) (ce : Int) :
    pageCursor (post :: rest) ce = pageCursor rest
      (match dictLookup post "created_utc" with
       | none => ce
       | some v =>
         match pyInt v with
         | .error _ => ce
         | .ok t => t) := rfl

theorem processPage_cursor :
    ∀ (zipped : List (Dict × Option (String → Val))) (u : Bool)
      (f : Option (List String)) (output : List Dict) (ce : Int)
      (out2 : List Dict) (ce2 : Int),
      processPage u f zipped output ce = .ok (out2, ce2) →
      ce2 = pageCursor (zipped.map Prod.fst) ce := by
  intro zipped
  induction zipped with
  | nil =>
    intro u f output ce out2 ce2 h
    simp only [processPage] at h
    cases h
    simp [pageCursor]
  | cons hd tl ih =>
    intro u f output ce out2 ce2 h
    obtain ⟨post, sub⟩ := hd
    simp only [processPage] at h
    cases hpp : processPost u f post sub with
    | error e => rw [hpp] at h; cases h
    | ok pc =>
      rw [hpp] at h
      obtain ⟨p, ce1⟩ := pc
      have hrec := ih u f (output ++ [p]) ce1 out2 ce2 h
      obtain ⟨v, hv, hvi⟩ := processPost_ce u f post sub p ce1 hpp
      have hstep : (match dictLookup post "created_utc" with
          | none => ce
          | some v =>
            match pyInt v with
            | .error _ => ce
            | .ok t => t) = ce1 := by
        rw [hv]
        simp [hvi]
      rw [List.map_cons, pageCursor_cons, hstep]
      exact hrec

/-! ## Lemmas about the id list -/

theorem postIds_ok :
    ∀ (posts : List Dict), (∀ post ∈ posts, (dictLookup post "id").isSome) →
      ∃ ids, postIds posts = .ok ids ∧ ids.length = posts.length := by
  intro posts
  induction posts with
  | nil => intro _; exact ⟨[], rfl, rfl⟩
  | cons post rest ih =>
    intro h
    obtain ⟨v, hv⟩ := Option.isSome_iff_exists.mp (h post (List.mem_cons_self _ _))
    obtain ⟨ids, hids, hlen⟩ := ih (fun q hq => h q (List.mem_cons_of_mem _ hq))
    exact ⟨("t3_" ++ pyStr v) :: ids, by simp [postIds, hv, hids], by simp [hlen]⟩

theorem postIds_length :
    ∀ (posts : List Dict) (ids : List String), postIds posts = .ok ids →
      ids.length = posts.length := by
  intro posts
  induction posts with
  | nil =>
    intro ids h
    simp only [postIds] at h
    cases h
    rfl
  | cons post rest ih =>
    intro ids h
    simp only [postIds] at h
    split at h
    · cases h
    · split at h
      · cases h
      · rename_i v hv tl htl
        cases h
        simp [ih tl htl]

/-! ## Lemmas about `scrapeStep` -/

theorem scrapeStep_emptyPage_inv (env : ScrapeEnv) (output : List Dict) (ce : Int)
    (pl : Payload) (h : scrapeStep env output ce = .emptyPage pl) :
    pl = mkPayload env.subreddit ce env.end_epoch ∧ env.api pl = [] := by
  unfold scrapeStep at h
  split at h
  · cases h
  · split at h
    · rename_i hempty
      cases h
      exact ⟨rfl, List.isEmpty_iff.mp hempty⟩
    · split at h
      · cases h
      · split at h
        · cases h
        · cases h

theorem scrapeStep_page_inv (env : ScrapeEnv) (output : List Dict) (ce : Int)
    (pl : Payload) (posts o2 : List Dict) (c2 : Int)
    (h : scrapeStep env output ce = .page pl posts o2 c2) :
    pl = mkPayload env.subreddit ce env.end_epoch ∧ posts = env.api pl ∧
      ∃ ids, postIds posts = .ok ids ∧
        processPage env.update env.fields (scrapeZip env ids posts) output ce
          = .ok (o2, c2) := by
  unfold scrapeStep at h
  split at h
  · cases h
  · rename_i ids hids
    split at h
    · cases h
    · split at h
      · cases h
      · split at h
        · cases h
        · rename_i x2 c2' hpp
          cases h
          exact ⟨rfl, rfl, ids, hids, hpp⟩

theorem scrapeStep_page_eq (env : ScrapeEnv) (output : List Dict) (ce : Int)
    (ids : List String) (o2 : List Dict) (c2 : Int)
    (hids : postIds (env.api (mkPayload env.subreddit ce env.end_epoch)) = .ok ids)
    (hne : (env.api (mkPayload env.subreddit ce env.end_epoch)).isEmpty = false)
    (hzne : (scrapeZip env ids (env.api (mkPayload env.subreddit ce env.end_epoch))).isEmpty
      = false)
    (hpp : processPage env.update env.fields
      (scrapeZip env ids (env.api (mkPayload env.subreddit ce env.end_epoch)))
      output ce = .ok (o2, c2)) :
    scrapeStep env output ce = .page (mkPayload env.subreddit ce env.end_epoch)
      (env.api (mkPayload env.subreddit ce env.end_epoch)) o2 c2 := by
  unfold scrapeStep
  simp [hids, hne, hzne, hpp]

theorem scrapeStep_empty_eq (env : ScrapeEnv) (output : List Dict) (ce : Int)
    (hempty : (env.api (mkPayload env.subreddit ce env.end_epoch)).isEmpty = true) :
    scrapeStep env output ce = .emptyPage (mkPayload env.subreddit ce env.end_epoch) := by
  unfold scrapeStep
  have hids : postIds (env.api (mkPayload env.subreddit ce env.end_epoch)) = .ok [] := by
    rw [List.isEmpty_iff.mp hempty]
    rfl
  simp [hids, hempty]

/-! ## Unfolding equations for the loop -/

theorem scrapeLoop_none (env : ScrapeEnv) (hc : env.count = none)
    (output : List Dict) (ce : Int) (trace : List (Payload × List Dict)) :
    scrapeLoop env output ce trace = .err .typeError := by
  simp only [scrapeLoop, hc]

theorem scrapeLoop_some (env : ScrapeEnv) (n : Int) (hc : env.count = some n)
    (output : List Dict) (ce : Int) (trace : List (Payload × List Dict)) :
    scrapeLoop env output ce trace = scrapeLoopInt env n output ce trace := by
  simp only [scrapeLoop, hc]

theorem scrapeLoopInt_exit (env : ScrapeEnv) (n : Int)
    (output : List Dict) (ce : Int) (trace : List (Payload × List Dict))
    (hge : ¬ (output.length : Int) < n) :
    scrapeLoopInt env n output ce trace = .ok output ce trace := by
  unfold scrapeLoopInt
  split
  · rename_i hlt
    exact absurd hlt hge
  · rfl

theorem scrapeLoopInt_empty (env : ScrapeEnv) (n : Int)
    (output : List Dict) (ce : Int) (trace : List (Payload × List Dict)) (pl : Payload)
    (hlt : (output.length : Int) < n)
    (hs : scrapeStep env output ce = .emptyPage pl) :
    scrapeLoopInt env n output ce trace = .ok output ce (trace ++ [(pl, [])]) := by
  unfold scrapeLoopInt
  split
  · split
    · rename_i e heq
      rw [hs] at heq
      cases heq
    · rename_i heq
      rw [hs] at heq
      cases heq
    · rename_i pl2 heq
      rw [hs] at heq
      cases heq
      rfl
    · rename_i pl2 posts2 o2 c2 heq
      rw [hs] at heq
      cases heq
  · rename_i hge
    exact absurd hlt hge

theorem scrapeLoopInt_step (env : ScrapeEnv) (n : Int)
    (output : List Dict) (ce : Int) (trace : List (Payload × List Dict))
    (pl : Payload) (posts o2 : List Dict) (c2 : Int)
    (hlt : (output.length : Int) < n)
    (hs : scrapeStep env output ce = .page pl posts o2 c2) :
    scrapeLoopInt env n output ce trace
      = scrapeLoopInt env n o2 c2 (trace ++ [(pl, posts)]) := by
  conv_lhs => rw [scrapeLoopInt]
  split
  · split
    · rename_i e heq
      rw [hs] at heq
      cases heq
    · rename_i heq
      rw [hs] at heq
      cases heq
    · rename_i pl2 heq
      rw [hs] at heq
      cases heq
    · rename_i pl2 posts2 o2' c2' heq
      rw [hs] at heq
      cases heq
      rfl
  · rename_i hge
    exact absurd hlt hge

/-- Full case analysis of one successful unfolding of the loop. -/
theorem scrapeLoopInt_ok_cases (env : ScrapeEnv) (n : Int) (output : List Dict)
    (ce : Int) (trace : List (Payload × List Dict)) (out : List Dict) (ceF : Int)
    (tr : List (Payload × List Dict))
    (h : scrapeLoopInt env n output ce trace = .ok out ceF tr) :
    (¬ (output.length : Int) < n ∧ out = output ∧ ceF = ce ∧ tr = trace) ∨
    ((output.length : Int) < n ∧ ∃ pl, scrapeStep env output ce = .emptyPage pl
       ∧ out = output ∧ ceF = ce ∧ tr = trace ++ [(pl, [])]) ∨
    ((output.length : Int) < n ∧ ∃ pl posts o2 c2,
       scrapeStep env output ce = .page pl posts o2 c2
       ∧ scrapeLoopInt env n o2 c2 (trace ++ [(pl, posts)]) = .ok out ceF tr) := by
  unfold scrapeLoopInt at h
  split at h
  · rename_i hlt
    split at h
    · cases h
    · cases h
    · rename_i pl heq
      cases h
      exact Or.inr (Or.inl ⟨hlt, pl, heq, rfl, rfl, rfl⟩)
    · rename_i pl posts o2 c2 heq
      exact Or.inr (Or.inr ⟨hlt, pl, posts, o2, c2, heq, h⟩)
  · rename_i hge
    cases h
    exact Or.inl ⟨hge, rfl, rfl, rfl⟩

/-! ## Global loop invariants -/

theorem scrapeZip_map_fst (env : ScrapeEnv) (ids : List String) (posts : List Dict)
    (hinfo : ∀ l, (env.info l).length = l.length) (hlen : ids.length = posts.length) :
    (scrapeZip env ids posts).map Prod.fst = posts := by
  unfold scrapeZip
  split
  · exact List.map_fst_zip _ _ (by rw [List.length_map, hinfo, hlen])
  · exact List.map_fst_zip _ _ (by rw [List.length_replicate])

/-- A successful run of the loop ended either because some page request
returned the empty page (and that call closes the trace), or because the
output had already reached the count at the top of the loop. -/
theorem scrapeLoopInt_stop (env : ScrapeEnv) (n : Int) :
    ∀ (m : Nat) (output : List Dict) (ce : Int) (trace : List (Payload × List Dict))
      (out : List Dict) (ceF : Int) (tr : List (Payload × List Dict)),
      (n - output.length).toNat ≤ m →
      scrapeLoopInt env n output ce trace = .ok out ceF tr →
      (∃ pl, tr.getLast? = some (pl, [])) ∨ n ≤ (out.length : Int) := by
  intro m
  induction m with
  | zero =>
    intro output ce trace out ceF tr hm h
    rcases scrapeLoopInt_ok_cases env n output ce trace out ceF tr h with
      ⟨hge, rfl, rfl, rfl⟩ | ⟨hlt, _⟩ | ⟨hlt, _⟩
    · right; omega
    · exfalso; omega
    · exfalso; omega
  | succ m ih =>
    intro output ce trace out ceF tr hm h
    rcases scrapeLoopInt_ok_cases env n output ce trace out ceF tr h with
      ⟨hge, rfl, rfl, rfl⟩ | ⟨hlt, pl, hs, rfl, rfl, rfl⟩ |
      ⟨hlt, pl, posts, o2, c2, hs, hrec⟩
    · right; omega
    · left
      exact ⟨pl, by simp⟩
    · have hg := scrapeStep_growth env output ce pl posts o2 c2 hs
      exact ih o2 c2 (trace ++ [(pl, posts)]) out ceF tr (by omega) hrec

/-- A successful run extends the trace by a chained suffix: every recorded
request carries the payload shape of lines 92-99 with `before` equal to the
cursor current at the time of the call. -/
theorem scrapeLoopInt_chained (env : ScrapeEnv)
    (hinfo : ∀ l, (env.info l).length = l.length) (n : Int) :
    ∀ (m : Nat) (output : List Dict) (ce : Int) (trace : List (Payload × List Dict))
      (out : List Dict) (ceF : Int) (tr : List (Payload × List Dict)),
      (n - output.length).toNat ≤ m →
      scrapeLoopInt env n output ce trace = .ok out ceF tr →
      ∃ ext, tr = trace ++ ext ∧ traceChained ce ext ∧
        ∀ pe ∈ ext, pe.1 = mkPayload env.subreddit pe.1.before env.end_epoch := by
  intro m
  induction m with
  | zero =>
    intro output ce trace out ceF tr hm h
    rcases scrapeLoopInt_ok_cases env n output ce trace out ceF tr h with
      ⟨hge, rfl, rfl, rfl⟩ | ⟨hlt, _⟩ | ⟨hlt, _⟩
    · exact ⟨[], by simp, trivial, by simp⟩
    · exfalso; omega
    · exfalso; omega
  | succ m ih =>
    intro output ce trace out ceF tr hm h
    rcases scrapeLoopInt_ok_cases env n output ce trace out ceF tr h with
      ⟨hge, rfl, rfl, rfl⟩ | ⟨hlt, pl, hs, rfl, rfl, rfl⟩ |
      ⟨hlt, pl, posts, o2, c2, hs, hrec⟩
    · exact ⟨[], by simp, trivial, by simp⟩
    · obtain ⟨hpl, hapi⟩ := scrapeStep_emptyPage_inv env _ _ pl hs
      refine ⟨[(pl, [])], rfl, ⟨by rw [hpl]; rfl, trivial⟩, ?_⟩
      intro pe hpe
      rcases List.mem_singleton.mp hpe with rfl
      rw [hpl]
      rfl
    · obtain ⟨hpl, hposts, ids, hids, hpp⟩ :=
        scrapeStep_page_inv env output ce pl posts o2 c2 hs
      have hidlen : ids.length = posts.length := postIds_length posts ids hids
      have hmap : (scrapeZip env ids posts).map Prod.fst = posts :=
        scrapeZip_map_fst env ids posts hinfo hidlen
      have hc2 : c2 = pageCursor posts ce := by
        have hcur := processPage_cursor (scrapeZip env ids posts) env.update
          env.fields output ce o2 c2 hpp
        rw [hmap] at hcur
        exact hcur
      have hg := scrapeStep_growth env output ce pl posts o2 c2 hs
      obtain ⟨ext, htr, hch, hsh⟩ :=
        ih o2 c2 (trace ++ [(pl, posts)]) out ceF tr (by omega) hrec
      refine ⟨(pl, posts) :: ext, ?_, ⟨by rw [hpl]; rfl, ?_⟩, ?_⟩
      · rw [htr]; simp
      · rw [← hc2]; exact hch
      · intro pe hpe
        rcases List.mem_cons.mp hpe with rfl | h1
        · rw [hpl]
          rfl
        · exact hsh pe h1

/-- The engine: against an archive that always answers a well-formed page
of exactly `k` items, with enrichment off and no (truthy) whitelist, the
loop terminates successfully, appends whole pages only, reaches the count,
overshoots by less than one page, and never sees an empty page. -/
theorem scrapeLoopInt_const (env : ScrapeEnv) (k : Nat) (n : Int)
    (hk : 0 < k) (hu : env.update = false) (hf : listTruthy env.fields = false)
    (hlen : ∀ p, (env.api p).length = k)
    (hwf : ∀ p, ∀ post ∈ env.api p,
      (∃ v t, dictLookup post "created_utc" = some v ∧ pyInt v = .ok t)
        ∧ (dictLookup post "id").isSome) :
    ∀ (m : Nat) (output : List Dict) (ce : Int) (trace : List (Payload × List Dict)),
      (n - output.length).toNat ≤ m →
      ∃ out ceF ext, scrapeLoopInt env n output ce trace = .ok out ceF (trace ++ ext)
        ∧ output.length ≤ out.length
        ∧ k ∣ (out.length - output.length)
        ∧ n ≤ (out.length : Int)
        ∧ ((out.length : Int) < n + k ∨ out.length = output.length)
        ∧ ∀ pe ∈ ext, pe.2.length = k := by
  intro m
  induction m with
  | zero =>
    intro output ce trace hm
    have hge : ¬ (output.length : Int) < n := by omega
    refine ⟨output, ce, [], ?_, le_refl _, ⟨0, by simp⟩, by omega, Or.inr rfl, by simp⟩
    rw [scrapeLoopInt_exit env n output ce trace hge]
    simp
  | succ m ih =>
    intro output ce trace hm
    by_cases hlt : (output.length : Int) < n
    · have hplen : (env.api (mkPayload env.subreddit ce env.end_epoch)).length = k :=
        hlen _
      have hwfp := hwf (mkPayload env.subreddit ce env.end_epoch)
      obtain ⟨ids, hids, hidlen⟩ :=
        postIds_ok _ (fun post hp => (hwfp post hp).2)
      have hne : (env.api (mkPayload env.subreddit ce env.end_epoch)).isEmpty = false := by
        rw [Bool.eq_false_iff]
        intro htrue
        rw [List.isEmpty_iff.mp htrue] at hplen
        simp at hplen
        omega
      have hzlen : (scrapeZip env ids
          (env.api (mkPayload env.subreddit ce env.end_epoch))).length = k := by
        unfold scrapeZip
        rw [hu]
        simp [hplen]
      have hzne : (scrapeZip env ids
          (env.api (mkPayload env.subreddit ce env.end_epoch))).isEmpty = false := by
        rw [Bool.eq_false_iff]
        intro htrue
        rw [List.isEmpty_iff.mp htrue] at hzlen
        simp at hzlen
        omega
      have hzmap : (scrapeZip env ids
            (env.api (mkPayload env.subreddit ce env.end_epoch))).map Prod.fst
          = env.api (mkPayload env.subreddit ce env.end_epoch) := by
        unfold scrapeZip
        rw [hu]
        simp only [Bool.false_eq_true, if_false]
        exact List.map_fst_zip _ _ (by rw [List.length_replicate])
      have hwfz : ∀ pr ∈ scrapeZip env ids
          (env.api (mkPayload env.subreddit ce env.end_epoch)),
          ∃ v t, dictLookup pr.fst "created_utc" = some v ∧ pyInt v = .ok t := by
        intro pr hpr
        have hmem : pr.fst ∈ (scrapeZip env ids
            (env.api (mkPayload env.subreddit ce env.end_epoch))).map Prod.fst :=
          List.mem_map_of_mem _ hpr
        rw [hzmap] at hmem
        exact (hwfp pr.fst hmem).1
      obtain ⟨c2, hpp⟩ := processPage_plain env.fields hf
        (scrapeZip env ids (env.api (mkPayload env.subreddit ce env.end_epoch)))
        output ce hwfz
      have hpp2 : processPage env.update env.fields
          (scrapeZip env ids (env.api (mkPayload env.subreddit ce env.end_epoch)))
          output ce = .ok (output ++ (scrapeZip env ids
            (env.api (mkPayload env.subreddit ce env.end_epoch))).map Prod.fst, c2) := by
        rw [hu]
        exact hpp
      have hstep := scrapeStep_page_eq env output ce ids _ c2 hids hne hzne hpp2
      rw [hzmap] at hstep
      have hloop := scrapeLoopInt_step env n output ce trace _ _ _ _ hlt hstep
      have hlen2 : (output ++ env.api (mkPayload env.subreddit ce env.end_epoch)).length
          = output.length + k := by
        simp [hplen]
      obtain ⟨out, ceF, ext, hrun, hle, hdvd, hn2, hdisj, hpages⟩ :=
        ih (output ++ env.api (mkPayload env.subreddit ce env.end_epoch)) c2
          (trace ++ [(mkPayload env.subreddit ce env.end_epoch,
            env.api (mkPayload env.subreddit ce env.end_epoch))])
          (by rw [hlen2]; omega)
      rw [hlen2] at hle hdisj
      refine ⟨out, ceF, (mkPayload env.subreddit ce env.end_epoch,
        env.api (mkPayload env.subreddit ce env.end_epoch)) :: ext, ?_, by omega, ?_, hn2,
        ?_, ?_⟩
      · rw [hloop, hrun]
        simp
      · obtain ⟨c, hdc⟩ := hdvd
        rw [hlen2] at hdc
        refine ⟨c + 1, ?_⟩
        have hrearrange : out.length - output.length
            = (out.length - (output.length + k)) + k := by omega
        rw [hrearrange, hdc]
        ring
      · left
        rcases hdisj with hlt2 | heq2
        · exact hlt2
        · rw [heq2]
          push_cast
          omega
      · intro pe hpe
        rcases List.mem_cons.mp hpe with rfl | h1
        · exact hplen
        · exact hpages pe h1
    · refine ⟨output, ce, [], ?_, le_refl _, ⟨0, by simp⟩, by omega, Or.inr rfl, by simp⟩
      rw [scrapeLoopInt_exit env n output ce trace hlt]
      simp

/-! ## The write step and `scrape_subreddit` -/

theorem fsLookup_set (fs : FileSys) (path content : String) :
    fsLookup (fsSet fs path content) path = some content := by
  induction fs with
  | nil => simp [fsSet, fsLookup]
  | cons hd tl ih =>
    obtain ⟨p, c⟩ := hd
    by_cases h : p = path
    · subst h
      simp [fsSet, fsLookup]
    · simp [fsSet, h, fsLookup, ih]

theorem mem_of_getLastOpt {α : Type} (l : List α) (a : α)
    (h : l.getLast? = some a) : a ∈ l := by
  obtain ⟨hne, heq⟩ := List.mem_getLast?_eq_getLast h
  rw [heq]
  exact List.getLast_mem hne

/-- All that a successful `scrape_subreddit` tells us: the loop succeeded
from the seeded cursor, and the file system was extended with the output
file at the deterministic path. -/
theorem scrape_subreddit_ok_inv (api : Payload → List Dict)
    (info : List String → List (String → Val)) (dump : List Dict → String)
    (fmtDate : Int → String) (fs : FileSys) (praw_ini_isfile : Bool)
    (subreddit : String) (update : Bool) (count : Option Int)
    (fields : Option (List String)) (start_date end_date : Int)
    (out : List Dict) (ce : Int) (tr : List (Payload × List Dict)) (fs2 : FileSys)
    (h : scrape_subreddit api info dump fmtDate fs praw_ini_isfile subreddit update
      count fields start_date end_date = .ok out ce tr fs2) :
    scrapeLoop ⟨api, info, subreddit, update, count, fields, start_date⟩
        [] (end_date + 86400 - 1) [] = .ok out ce tr
      ∧ fs2 = fsSet fs (subreddit ++ "-" ++ fmtDate (end_date + 86400 - 1) ++ "-"
          ++ fmtDate start_date ++ ".json") (dump out) := by
  unfold scrape_subreddit at h
  split at h
  · cases h
  · split at h
    · rename_i o2 c2 t2 hloop
      cases h
      exact ⟨hloop, rfl⟩
    · cases h
    · cases h

/-- Forward evaluation of `scrape_subreddit` from a known loop run. -/
theorem scrape_subreddit_ok_eq (api : Payload → List Dict)
    (info : List String → List (String → Val)) (dump : List Dict → String)
    (fmtDate : Int → String) (fs : FileSys) (praw_ini_isfile : Bool)
    (subreddit : String) (count : Option Int)
    (fields : Option (List String)) (start_date end_date : Int)
    (out : List Dict) (ce : Int) (tr : List (Payload × List Dict))
    (hloop : scrapeLoop ⟨api, info, subreddit, false, count, fields, start_date⟩
      [] (end_date + 86400 - 1) [] = .ok out ce tr) :
    scrape_subreddit api info dump fmtDate fs praw_ini_isfile subreddit false
        count fields start_date end_date
      = .ok out ce tr (fsSet fs
          (subreddit ++ "-" ++ fmtDate (end_date + 86400 - 1) ++ "-"
            ++ fmtDate start_date ++ ".json")
          (dump out)) := by
  unfold scrape_subreddit
  simp only [Bool.false_eq_true, if_false, hloop]

/-! ## Concrete stubs for witnesses and counterexamples -/

/-- A stub archive that always answers the empty page. -/
def apiEmpty : Payload → List Dict := fun _ => []

/-- A stub archive whose every page is one well-formed post. -/
def post1 : Dict := [("id", Val.str "a"), ("created_utc", Val.int 42)]

def api1 : Payload → List Dict := fun _ => [post1]

/-- A stub archive whose every page is 500 well-formed posts. -/
def post500 (i : Nat) : Dict := [("id", Val.str "a"), ("created_utc", Val.int i)]

def api500 : Payload → List Dict := fun _ => (List.range 500).map post500

/-- A stub live API answering one null-attribute submission per id. -/
def infoStub : List String → List (String → Val) :=
  fun ids => ids.map (fun _ => fun _ => Val.null)

def dumpStub : List Dict → String := fun _ => "[]"

def fmtStub : Int → String := fun _ => "d"

theorem api1_length : ∀ p, (api1 p).length = 1 := fun _ => rfl

theorem api1_wf : ∀ p, ∀ post ∈ api1 p,
    (∃ v t, dictLookup post "created_utc" = some v ∧ pyInt v = .ok t)
      ∧ (dictLookup post "id").isSome := by
  intro p post hp
  simp [api1] at hp
  subst hp
  exact ⟨⟨Val.int 42, 42, rfl, rfl⟩, rfl⟩

theorem api500_length : ∀ p, (api500 p).length = 500 := by
  intro p
  simp [api500]

theorem api500_wf : ∀ p, ∀ post ∈ api500 p,
    (∃ v t, dictLookup post "created_utc" = some v ∧ pyInt v = .ok t)
      ∧ (dictLookup post "id").isSome := by
  intro p post hp
  simp [api500, List.mem_map] at hp
  obtain ⟨i, hi, rfl⟩ := hp
  exact ⟨⟨Val.int i, i, rfl, rfl⟩, rfl⟩

theorem infoStub_length : ∀ l, (infoStub l).length = l.length := by
  intro l
  simp [infoStub]

/-- The one-step run against the always-empty archive. -/
theorem emptyLoopRun :
    scrapeLoop ⟨apiEmpty, infoStub, "t", false, some 1, none, 0⟩ [] 86399 []
      = .ok [] 86399 [(mkPayload "t" 86399 0, [])] := by
  rw [scrapeLoop_some _ 1 rfl]
  have hstep : scrapeStep ⟨apiEmpty, infoStub, "t", false, some 1, none, 0⟩ [] 86399
      = .emptyPage (mkPayload "t" 86399 0) :=
    scrapeStep_empty_eq _ [] 86399 rfl
  have h := scrapeLoopInt_empty _ 1 [] 86399 [] _ (by norm_num) hstep
  simpa using h

/-- A full `scrape_subreddit` run against the always-empty archive, for any
starting file system. -/
theorem emptyRun (fs : FileSys) :
    scrape_subreddit apiEmpty infoStub dumpStub fmtStub fs true "t" false
        (some 1) none 0 0
      = .ok [] 86399 [(mkPayload "t" 86399 0, [])] (fsSet fs "t-d-d.json" "[]") := by
  have h := scrape_subreddit_ok_eq apiEmpty infoStub dumpStub fmtStub fs true "t"
    (some 1) none 0 0 [] 86399 [(mkPayload "t" 86399 0, [])] (by norm_num; exact emptyLoopRun)
  norm_num at h
  exact h

/-! ## The claims -/

/-- C1, counterexample.  The claim says an empty page is the sole
termination condition and the loop never stops because of the target count.
Against an archive that always answers a one-post page, with count 1, the
loop terminates successfully although no call ever returned an empty page:
the count stopped it. -/
theorem C1_counterexample :
    ∃ out ceF tr,
      scrapeLoop ⟨api1, infoStub, "test", false, some 1, none, 0⟩ [] 100 []
        = .ok out ceF tr
      ∧ ∀ pl, tr.getLast? ≠ some (pl, ([] : List Dict)) := by
  obtain ⟨out, ceF, ext, hrun, hle, hdvd, hn, hdisj, hpages⟩ :=
    scrapeLoopInt_const ⟨api1, infoStub, "test", false, some 1, none, 0⟩ 1 1
      (by norm_num) rfl rfl api1_length api1_wf 1 [] 100 [] (by norm_num)
  rw [List.nil_append] at hrun
  refine ⟨out, ceF, ext, ?_, ?_⟩
  · rw [scrapeLoop_some _ 1 rfl]
    exact hrun
  · intro pl hlast
    have hmem := mem_of_getLastOpt ext (pl, []) hlast
    have hlen1 := hpages (pl, []) hmem
    simp at hlen1

/-- C1, amended.  The loop terminates either at the top of the loop once
the output length has reached the count, or after exactly the archive call
that returned an empty page (which then closes the recorded trace); it
never stops mid-page. -/
theorem C1_amended (env : ScrapeEnv) (n : Int) (output : List Dict) (ce : Int)
    (trace : List (Payload × List Dict)) (out : List Dict) (ceF : Int)
    (tr : List (Payload × List Dict))
    (hc : env.count = some n)
    (h : scrapeLoop env output ce trace = .ok out ceF tr) :
    (∃ pl, tr.getLast? = some (pl, ([] : List Dict))) ∨ n ≤ (out.length : Int) := by
  rw [scrapeLoop_some env n hc] at h
  exact scrapeLoopInt_stop env n ((n - output.length).toNat) output ce trace
    out ceF tr (le_refl _) h

/-- C1, witness for the amended theorem, at the always-empty archive. -/
theorem C1_amended_witness :
    (∃ pl, [(mkPayload "t" 86399 0, ([] : List Dict))].getLast? = some (pl, ([] : List Dict)))
      ∨ (1 : Int) ≤ (([] : List Dict).length : Int) :=
  C1_amended ⟨apiEmpty, infoStub, "t", false, some 1, none, 0⟩ 1 [] 86399 []
    [] 86399 [(mkPayload "t" 86399 0, [])] rfl emptyLoopRun

/-- C2.  With a target count `N > 0` and an archive whose pages always hold
exactly 500 well-formed posts, the loop succeeds, every item of every
fetched page is appended (the count is only checked at the top of the
loop), no empty page is ever seen, and the final output length is the
smallest multiple of 500 that is at least `N`. -/
theorem C2_count_reached (api : Payload → List Dict)
    (info : List String → List (String → Val)) (sub : String)
    (fields : Option (List String)) (ee : Int) (N : Nat) (ce0 : Int)
    (hf : listTruthy fields = false) (hN : 0 < N)
    (hlen : ∀ p, (api p).length = 500)
    (hwf : ∀ p, ∀ post ∈ api p,
      (∃ v t, dictLookup post "created_utc" = some v ∧ pyInt v = .ok t)
        ∧ (dictLookup post "id").isSome) :
    ∃ out ceF tr,
      scrapeLoop ⟨api, info, sub, false, some (N : Int), fields, ee⟩ [] ce0 []
        = .ok out ceF tr
      ∧ out.length = 500 * ((N + 499) / 500)
      ∧ N ≤ out.length
      ∧ ∀ pe ∈ tr, pe.2 ≠ ([] : List Dict) := by
  obtain ⟨out, ceF, ext, hrun, hle, hdvd, hn, hdisj, hpages⟩ :=
    scrapeLoopInt_const ⟨api, info, sub, false, some (N : Int), fields, ee⟩ 500
      (N : Int) (by norm_num) rfl hf hlen hwf N [] ce0 [] (by simp)
  rw [List.nil_append] at hrun
  simp only [List.length_nil, Nat.sub_zero] at hdvd hdisj
  obtain ⟨c, hc⟩ := hdvd
  refine ⟨out, ceF, ext, ?_, ?_, ?_, ?_⟩
  · rw [scrapeLoop_some _ (N : Int) rfl]
    exact hrun
  · rcases hdisj with hlt | h0
    · omega
    · omega
  · omega
  · intro pe hpe hcon
    have hp5 := hpages pe hpe
    rw [hcon] at hp5
    simp at hp5

/-- C2, witness: count 750 against constant 500-post pages gives 1000. -/
theorem C2_witness :
    ∃ out ceF tr,
      scrapeLoop ⟨api500, infoStub, "test", false, some ((750 : Nat) : Int), none, 0⟩
          [] 999 [] = .ok out ceF tr
      ∧ out.length = 500 * ((750 + 499) / 500)
      ∧ 750 ≤ out.length
      ∧ ∀ pe ∈ tr, pe.2 ≠ ([] : List Dict) :=
  C2_count_reached api500 infoStub "test" none 0 750 999 rfl (by norm_num)
    api500_length api500_wf

/-- C3.  For every non-empty page processed, the cursor is overwritten with
the `created_utc` of each item in order, so after the page the cursor equals the
(int-converted) `created_utc` of the last item of the page. -/
theorem C3_cursor_last (u : Bool) (f : Option (List String))
    (zipped : List (Dict × Option (String → Val))) (hne : zipped ≠ [])
    (output : List Dict) (ce : Int) (out2 : List Dict) (ce2 : Int)
    (h : processPage u f zipped output ce = .ok (out2, ce2)) :
    ∃ v, dictLookup (zipped.getLast hne).fst "created_utc" = some v ∧
      pyInt v = .ok ce2 :=
  processPage_getLast zipped hne u f output ce out2 ce2 h

def postA : Dict := [("created_utc", Val.int 5)]

def postB : Dict := [("created_utc", Val.int 7)]

/-- C3, witness: a concrete two-post page ends with cursor 7. -/
theorem C3_witness :
    ∃ v, dictLookup (([(postA, (none : Option (String → Val))), (postB, none)].getLast
        (by simp)).fst) "created_utc" = some v ∧ pyInt v = .ok 7 :=
  C3_cursor_last false none [(postA, none), (postB, none)] (by simp) [] 0
    [postA, postB] 7 rfl

/-- C4.  With a non-empty whitelist and enrichment on, the whitelist
reduction happens before enrichment: the output item holds only
whitelisted keys, each whitelisted volatile field carries the live value,
and each whitelisted non-volatile field keeps its archive value. -/
theorem C4_whitelist_then_update (wl : List String) (post : Dict)
    (s : String → Val) (t : Int)
    (hne : wl ≠ []) (hcu : dictLookup post "created_utc" = some (Val.int t))
    (hwl : ∀ f ∈ wl, (dictLookup post f).isSome) :
    ∃ out, processPost true (some wl) post (some s) = .ok (out, t)
      ∧ (∀ k v, dictLookup out k = some v → k ∈ wl)
      ∧ (∀ f ∈ wl, f ∈ FIELDS_TO_UPDATE → dictLookup out f = some (s f))
      ∧ (∀ f ∈ wl, f ∉ FIELDS_TO_UPDATE → dictLookup out f = dictLookup post f) := by
  obtain ⟨red, hred, hredspec⟩ := keepFieldsLoop_ok post wl [] hwl
  have htruthy : listTruthy (some wl) = true := by
    cases wl with
    | nil => exact absurd rfl hne
    | cons a l => rfl
  refine ⟨updateFields s red, ?_, ?_, ?_, ?_⟩
  · unfold processPost subscript
    rw [hcu]
    simp [htruthy, keep_whitelisted_fields, hred]
    rfl
  · intro k v hkv
    rw [updateFields_lookup] at hkv
    by_cases hmem : k ∈ FIELDS_TO_UPDATE ∧ (dictLookup red k).isSome
    · have hks := hmem.2
      rw [hredspec k] at hks
      by_cases hk : k ∈ wl
      · exact hk
      · rw [if_neg hk] at hks
        simp [dictLookup] at hks
    · rw [if_neg hmem, hredspec k] at hkv
      by_cases hk : k ∈ wl
      · exact hk
      · rw [if_neg hk] at hkv
        simp [dictLookup] at hkv
  · intro f hf hfup
    rw [updateFields_lookup]
    have hsome : (dictLookup red f).isSome := by
      rw [hredspec f, if_pos hf]
      exact hwl f hf
    rw [if_pos ⟨hfup, hsome⟩]
  · intro f hf hfnup
    rw [updateFields_lookup, if_neg (fun hcon => hfnup hcon.1), hredspec f, if_pos hf]

def postW : Dict := [("created_utc", Val.int 5), ("score", Val.int 3)]

def subW : String → Val := fun _ => Val.int 99

/-- C4, witness: whitelist `score` with an archive score of 3 and a live
score of 99. -/
theorem C4_witness :
    ∃ out, processPost true (some ["score"]) postW (some subW) = .ok (out, 5)
      ∧ (∀ k v, dictLookup out k = some v → k ∈ ["score"])
      ∧ (∀ f ∈ ["score"], f ∈ FIELDS_TO_UPDATE → dictLookup out f = some (subW f))
      ∧ (∀ f ∈ ["score"], f ∉ FIELDS_TO_UPDATE →
          dictLookup out f = dictLookup postW f) :=
  C4_whitelist_then_update ["score"] postW subW 5 (by simp) rfl (by decide)

/-- C5.  The claim says a run without a field whitelist keeps all fields
and completes without error; but in `main` the local `fields` is assigned
only under `if args.field_list:`, so every invocation without
`--field_list` raises `UnboundLocalError` at the `scrape_subreddit` call,
contradicting the help text of the option itself. -/
theorem C5_unbound_fields (api : Payload → List Dict)
    (info : List String → List (String → Val)) (dump : List Dict → String)
    (fmtDate : Int → String) (fs : FileSys) (praw_ini_isfile : Bool)
    (sub : String) (update : Bool) (cli_count : Option Int)
    (read_lines_of_file : String → List String)
    (start_date end_date : Option Int) (now : Int) :
    main_scrape_one api info dump fmtDate fs praw_ini_isfile sub update cli_count
      none read_lines_of_file start_date end_date now
      = .err (.unboundLocal "fields") := rfl

set_option maxRecDepth 4000 in
/-- C6, counterexample.  The claim says an absent target count means no
limit.  But argparse defaults `--count` to 1000, and against an archive
with inexhaustible 500-post pages the loop stops at exactly 1000 posts
without ever seeing an empty page. -/
theorem C6_counterexample :
    parsed_count none = 1000 ∧
    ∃ out ceF tr,
      scrapeLoop ⟨api500, infoStub, "test", false, some (parsed_count none), none, 0⟩
          [] 999999 [] = .ok out ceF tr
      ∧ out.length = 1000
      ∧ ∀ pl, tr.getLast? ≠ some (pl, ([] : List Dict)) := by
  refine ⟨rfl, ?_⟩
  obtain ⟨out, ceF, ext, hrun, hle, hdvd, hn, hdisj, hpages⟩ :=
    scrapeLoopInt_const
      ⟨api500, infoStub, "test", false, some (parsed_count none), none, 0⟩ 500
      (parsed_count none) (by norm_num) rfl rfl api500_length api500_wf
      1000 [] 999999 [] (by decide)
  rw [List.nil_append] at hrun
  simp only [List.length_nil, Nat.sub_zero] at hdvd hdisj
  obtain ⟨c, hc⟩ := hdvd
  have hpc : parsed_count none = (1000 : Int) := rfl
  rw [hpc] at hn hdisj
  refine ⟨out, ceF, ext, ?_, ?_, ?_⟩
  · rw [scrapeLoop_some _ (parsed_count none) rfl]
    exact hrun
  · rcases hdisj with hlt | h0
    · omega
    · omega
  · intro pl hlast
    have hmem := mem_of_getLastOpt ext (pl, []) hlast
    have hlen5 := hpages (pl, []) hmem
    simp at hlen5

/-- C6, amended.  When `--count` is absent, argparse substitutes 1000, a
hard limit; the `count is None` branch of the loop condition is dead code:
had the loop ever been entered with `count = None`, the comparison
`len(output) < None` would raise `TypeError` at the first condition check. -/
theorem C6_amended (api : Payload → List Dict)
    (info : List String → List (String → Val)) (sub : String) (upd : Bool)
    (flds : Option (List String)) (ee : Int) (output : List Dict) (ce : Int)
    (trace : List (Payload × List Dict)) :
    scrapeLoop ⟨api, info, sub, upd, none, flds, ee⟩ output ce trace
        = .err .typeError
      ∧ parsed_count none = 1000 :=
  ⟨scrapeLoop_none _ rfl output ce trace, rfl⟩

/-- C7.  The range end is normalised to end date plus one day minus one
second, the cursor is seeded at that newest boundary, and every archive
request of a successful run carries before = the cursor current at that
call, after = the range start, size = 500, sort = desc and
sort_type = created_utc. -/
theorem C7_payload_shape (api : Payload → List Dict)
    (info : List String → List (String → Val)) (dump : List Dict → String)
    (fmtDate : Int → String) (fs : FileSys) (praw_ini_isfile : Bool)
    (sub : String) (update : Bool) (count : Option Int)
    (fields : Option (List String)) (start_date end_date : Int)
    (out : List Dict) (ce : Int) (tr : List (Payload × List Dict)) (fs2 : FileSys)
    (hinfo : ∀ l, (info l).length = l.length)
    (h : scrape_subreddit api info dump fmtDate fs praw_ini_isfile sub update
      count fields start_date end_date = .ok out ce tr fs2) :
    traceChained (end_date + 86400 - 1) tr
      ∧ ∀ pe ∈ tr, pe.1 = mkPayload sub pe.1.before start_date := by
  obtain ⟨hloop, hfs⟩ := scrape_subreddit_ok_inv api info dump fmtDate fs
    praw_ini_isfile sub update count fields start_date end_date out ce tr fs2 h
  cases hcnt : count with
  | none =>
    rw [scrapeLoop_none _ hcnt] at hloop
    cases hloop
  | some n =>
    rw [scrapeLoop_some _ n hcnt] at hloop
    obtain ⟨ext, htr, hch, hsh⟩ :=
      scrapeLoopInt_chained ⟨api, info, sub, update, count, fields, start_date⟩
        hinfo n ((n - (0 : Int)).toNat) [] (end_date + 86400 - 1) [] out ce tr
        (by simp) hloop
    rw [List.nil_append] at htr
    subst htr
    exact ⟨hch, hsh⟩

/-- C7, witness at the always-empty archive: the single request carries the
seeded cursor as `before`. -/
theorem C7_witness :
    traceChained ((0 : Int) + 86400 - 1) [(mkPayload "t" 86399 0, ([] : List Dict))]
      ∧ ∀ pe ∈ [(mkPayload "t" 86399 0, ([] : List Dict))],
          pe.1 = mkPayload "t" pe.1.before 0 :=
  C7_payload_shape apiEmpty infoStub dumpStub fmtStub [] true "t" false (some 1)
    none 0 0 [] 86399 [(mkPayload "t" 86399 0, [])] (fsSet [] "t-d-d.json" "[]")
    infoStub_length (emptyRun [])

/-- C8, counterexample.  The claim says that when the output file already
exists (and no overwrite was requested) the process exits non-zero instead
of writing.  But the source opens the output path in mode `w`
unconditionally: with the file already present the run still succeeds and
the file is silently overwritten. -/
theorem C8_counterexample :
    (∀ e, scrape_subreddit apiEmpty infoStub dumpStub fmtStub
        [("t-d-d.json", "old")] true "t" false (some 1) none 0 0 ≠ .err e)
    ∧ ∃ out ceF tr fs2,
        scrape_subreddit apiEmpty infoStub dumpStub fmtStub
          [("t-d-d.json", "old")] true "t" false (some 1) none 0 0
          = .ok out ceF tr fs2
        ∧ fsLookup [("t-d-d.json", "old")] "t-d-d.json" = some "old"
        ∧ fsLookup fs2 "t-d-d.json" = some "[]" := by
  have hrun := emptyRun [("t-d-d.json", "old")]
  refine ⟨?_, [], 86399, [(mkPayload "t" 86399 0, [])],
    fsSet [("t-d-d.json", "old")] "t-d-d.json" "[]", hrun, rfl, ?_⟩
  · intro e hcon
    rw [hrun] at hcon
    cases hcon
  · rw [fsLookup_set]

/-- C8, amended.  On every successful run the output file is written
unconditionally at the deterministic path, overwriting whatever was there;
no existence check or overwrite flag exists in the code. -/
theorem C8_amended (api : Payload → List Dict)
    (info : List String → List (String → Val)) (dump : List Dict → String)
    (fmtDate : Int → String) (fs : FileSys) (praw_ini_isfile : Bool)
    (sub : String) (update : Bool) (count : Option Int)
    (fields : Option (List String)) (start_date end_date : Int)
    (out : List Dict) (ce : Int) (tr : List (Payload × List Dict)) (fs2 : FileSys)
    (h : scrape_subreddit api info dump fmtDate fs praw_ini_isfile sub update
      count fields start_date end_date = .ok out ce tr fs2) :
    fsLookup fs2 (sub ++ "-" ++ fmtDate (end_date + 86400 - 1) ++ "-"
        ++ fmtDate start_date ++ ".json")
      = some (dump out) := by
  obtain ⟨hloop, hfs⟩ := scrape_subreddit_ok_inv api info dump fmtDate fs
    praw_ini_isfile sub update count fields start_date end_date out ce tr fs2 h
  rw [hfs, fsLookup_set]

/-- C8, witness for the amended theorem. -/
theorem C8_amended_witness :
    fsLookup (fsSet [] "t-d-d.json" "[]") "t-d-d.json" = some "[]" :=
  C8_amended apiEmpty infoStub dumpStub fmtStub [] true "t" false (some 1) none
    0 0 [] 86399 [(mkPayload "t" 86399 0, [])] (fsSet [] "t-d-d.json" "[]")
    (emptyRun [])

/-- C9, counterexample.  The claim says the credentials-file check only
warns and does not itself abort.  But `login_to_reddit` calls `exit(1)`
when `praw.ini` is absent: the check aborts the process before any login
attempt. -/
theorem C9_counterexample :
    login_to_reddit false
        = .error (.systemExit 1 "praw.ini not found in this directory")
      ∧ ∀ u, login_to_reddit false ≠ .ok u :=
  ⟨rfl, fun u h => by simp [login_to_reddit] at h⟩

/-- C9, amended.  When `praw.ini` is absent the check prints its diagnostic
and exits with status 1; when the file is present, login proceeds. -/
theorem C9_amended (b : Bool) :
    login_to_reddit b = if b then .ok ()
      else .error (.systemExit 1 "praw.ini not found in this directory") := by
  cases b <;> rfl

/-- C10.  Reducing an item to a whitelist that contains a field absent from
the item raises `KeyError`: the reduction demands every whitelisted field,
it is not an intersection with the fields of the item. -/
theorem C10_keyerror (post : Dict) (wl : List String) (f : String)
    (hf : f ∈ wl) (hnone : dictLookup post f = none) :
    ∃ g, keep_whitelisted_fields post wl = .error (.keyError g) ∧ g ∈ wl ∧
      dictLookup post g = none :=
  keepFieldsLoop_err post wl [] f hf hnone

/-- C10, witness: the empty item with whitelist `[a]`. -/
theorem C10_witness :
    ∃ g, keep_whitelisted_fields [] ["a"] = .error (.keyError g) ∧ g ∈ ["a"] ∧
      dictLookup [] g = none :=
  C10_keyerror [] ["a"] "a" (by simp) rfl

end Scraper
